import Mathlib

/-!
Shallow embedding of `src/api/agent/runner_client.go` (package `agent` of the
fn load-balancer): the gRPC runner client that places a call on a remote
runner (`TryExec`), streams the request body to it (`sendToRunner`) and
receives the response (`receiveFromRunner`), classifying failures as
retriable or committed.

Go errors are modelled by the inductive `GoErr` (with `Option GoErr` for a
possibly-nil `error`).  The collaborating packages `models`, `status` and
`common` are not part of the source tree; the few functions of theirs that
this file depends on (`models.GetAPIErrorCode`, `status.Convert(...).Code()`,
`common.ParseDateTime`) are modelled from the spec, as marked in their doc
comments.
-/

namespace RunnerClient

/-- Payload of a structured application error (`models.APIError`): an HTTP-style
numeric code and a message. -/
structure APIErr where
  code : Int
  msg : String
deriving DecidableEq, Repr

/-- Model of a Go `error` value.  `runnerClosed` is `ErrorRunnerClosed`,
`pureRunnerNoEOF` is `ErrorPureRunnerNoEOF`, `ioEOF` is `io.EOF`,
`ioShortWrite` is `io.ErrShortWrite`, `sinkWriteErr` is an opaque non-nil
error returned by the response sink's `Write`, `api` is a `models.APIError`,
`funcErr` is a user-caused wrapper (`models.NewFuncError`) around an
`APIError`, `grpcStatus` is a transport status error carrying a gRPC code,
and `other` is any other opaque error. -/
inductive GoErr where
  | runnerClosed
  | pureRunnerNoEOF
  | ioEOF
  | ioShortWrite
  | sinkWriteErr
  | api (e : APIErr)
  | funcErr (e : APIErr)
  | grpcStatus (code : Int) (msg : String)
  | other (tag : String)
deriving DecidableEq, Repr

/-- Modelled from the spec: `models.GetAPIErrorCode` (package `models`, not
under `src/`) resolves a structured application error to its numeric code, and
yields 0 for nil and for errors that are not structured application errors.
The user-caused wrapper keeps the wrapped error's code. -/
def getAPIErrorCode : Option GoErr → Int
  | none => 0
  | some (GoErr.api e) => e.code
  | some (GoErr.funcErr e) => e.code
  | some _ => 0

/-- Modelled from the spec: `status.Convert(err).Code()` for a non-nil `err`
yields the error's transport status code when it is a transport status error,
and the "unknown" code (2) otherwise. -/
def grpcCodeOf : GoErr → Int
  | GoErr.grpcStatus c _ => c
  | _ => 2

/-- Modelled from the spec: `models.ErrCallTimeoutServerBusy` (package
`models`, not under `src/`) is the reserved server-busy sentinel, a structured
application error with code 503. -/
def errCallTimeoutServerBusy : GoErr :=
  GoErr.api ⟨503, "Timed out - server too busy"⟩

/-- Transport code `codes.Unavailable`. -/
def codeUnavailable : Int := 14

/-- Embedding of `isTooBusy` (runner_client.go:100-113): true when the error's
structured application code equals the busy sentinel's code, or, failing that,
when the error is non-nil and its transport status code equals that code. -/
def isTooBusy (err : Option GoErr) : Bool :=
  if getAPIErrorCode err = getAPIErrorCode (some errCallTimeoutServerBusy) then
    true
  else
    match err with
    | none => false
    | some e =>
      decide (grpcCodeOf e = getAPIErrorCode (some errCallTimeoutServerBusy))

/-- Outcome of the three-way race at the end of `TryExec`
(runner_client.go:222-232): either the caller's context ends (with its non-nil
`ctx.Err()`), or the terminal-signal channel produces a value (`none` models a
nil error: full success, or the channel closed without a post). -/
inductive RaceOutcome where
  | ctxDone (e : GoErr)
  | recvDone (v : Option GoErr)
deriving DecidableEq, Repr

/-- Environment of one `TryExec` invocation: the outcome of each fallible step
in order (session-guard admission, JSON marshalling of the model, `Engage`
stream opening, the `Send` of the placement request, and the final race). -/
structure ExecEnv where
  guardAccepts : Bool
  marshalErr : Option GoErr
  engageErr : Option GoErr
  sendErr : Option GoErr
  race : RaceOutcome
deriving DecidableEq, Repr

/-- Result of `TryExec` together with a trace of the side effects it reached:
whether the call's model was marshalled, and whether the placement-request
`Send` was attempted. -/
structure TryExecResult where
  committed : Bool
  err : Option GoErr
  marshalAttempted : Bool
  placementSendAttempted : Bool
deriving DecidableEq, Repr

/-- Embedding of `TryExec` (runner_client.go:165-233).  Rejection by the
session guard returns `(false, ErrorRunnerClosed)`; a marshalling failure
returns `(true, err)`; an `Engage` failure returns `(false, err)`; a `Send`
failure returns committed unless the transport code is "unavailable"; then the
race outcome decides: context end gives `(true, ctxErr)`, a terminal value
gives `(false, ErrCallTimeoutServerBusy)` when it classifies as busy and
`(true, value)` otherwise. -/
def TryExec (env : ExecEnv) : TryExecResult :=
  if !env.guardAccepts then
    ⟨false, some GoErr.runnerClosed, false, false⟩
  else
    match env.marshalErr with
    | some e => ⟨true, some e, true, false⟩
    | none =>
      match env.engageErr with
      | some e => ⟨false, some e, true, false⟩
      | none =>
        match env.sendErr with
        | some e => ⟨!decide (grpcCodeOf e = codeUnavailable), some e, true, true⟩
        | none =>
          match env.race with
          | RaceOutcome.ctxDone e => ⟨true, some e, true, true⟩
          | RaceOutcome.recvDone v =>
            if isTooBusy v then
              ⟨false, some errCallTimeoutServerBusy, true, true⟩
            else
              ⟨true, v, true, true⟩

/-- Fields of the worker's `Finished` message (`pb.CallFinished`) that the
client reads.  The three timestamps are date strings, modelled by their parse
result: `none` for an empty or malformed string, `some t` for a string the
best-effort date parser resolves to time `t` (nanoseconds; 0 is the zero
time).  Fields used only in logging and tracing (image, call id, docker-pull
figures) are omitted. -/
structure CallFinished where
  success : Bool
  errorCode : Int
  errorStr : String
  errorUser : Bool
  schedulerDuration : Int
  executionDuration : Int
  createdAt : Option Int
  startedAt : Option Int
  completedAt : Option Int
deriving DecidableEq, Repr

/-- Embedding of `translateDate` (runner_client.go:313-321): an empty or
unparseable date string yields the zero time, otherwise the parsed time.
`common.ParseDateTime` is not under `src/`; modelled from the spec as a
best-effort parser that fails silently to the zero time. -/
def translateDate (d : Option Int) : Int :=
  d.getD 0

/-- Side effects of `recordFinishStats`: the value recorded to the scheduler
latency stat, the value recorded to the execution latency stat, and the value
added to the call's user-execution-time accumulator (`none` = not recorded). -/
structure StatsOut where
  sched : Option Int
  exec : Option Int
  userAdd : Option Int
deriving DecidableEq, Repr

/-- Embedding of `recordFinishStats` (runner_client.go:323-357): when either
transmitted duration is non-zero, record each non-zero one directly and add
the execution duration to the call's accumulator; otherwise fall back to the
three wall-clock timestamps, recording derived durations only when all three
are non-zero and monotonically non-decreasing. -/
def recordFinishStats (m : CallFinished) : StatsOut :=
  if m.schedulerDuration ≠ 0 ∨ m.executionDuration ≠ 0 then
    { sched := if m.schedulerDuration ≠ 0 then some m.schedulerDuration else none
      exec := if m.executionDuration ≠ 0 then some m.executionDuration else none
      userAdd := if m.executionDuration ≠ 0 then some m.executionDuration else none }
  else
    let creatTs := translateDate m.createdAt
    let startTs := translateDate m.startedAt
    let complTs := translateDate m.completedAt
    if ¬creatTs = 0 ∧ ¬startTs = 0 ∧ ¬complTs = 0 ∧
        ¬startTs < creatTs ∧ ¬complTs < startTs then
      { sched := some (startTs - creatTs)
        exec := some (complTs - startTs)
        userAdd := some (complTs - startTs) }
    else
      { sched := none, exec := none, userAdd := none }

/-- Embedding of `parseError` (runner_client.go:290-304): nil on success;
otherwise an `APIError` built from the message's code and string (with a
default string when empty), wrapped as a user-caused error when the worker
marked it user-caused. -/
def parseError (m : CallFinished) : Option GoErr :=
  if m.success then none
  else
    let eStr := if m.errorStr = "" then "Unknown Error From Pure Runner" else m.errorStr
    if m.errorUser then some (GoErr.funcErr ⟨m.errorCode, eStr⟩)
    else some (GoErr.api ⟨m.errorCode, eStr⟩)

/-- Outcome of one blocking read of the call's request body: the bytes read
(bytes as naturals) and the accompanying error (`none`, `io.EOF`, or another
read error). -/
structure ReadResult where
  data : List Nat
  err : Option GoErr
deriving DecidableEq, Repr

/-- A `pb.DataFrame` as handed to `Send`: payload bytes and end-of-stream flag. -/
structure DataFrame where
  data : List Nat
  eof : Bool
deriving DecidableEq, Repr

/-- Condition `isEOF` of the streamer loop (runner_client.go:261): any read
error, or an empty read. -/
def readIsEOF (r : ReadResult) : Bool :=
  r.err.isSome || r.data.isEmpty

/-- The data frame the streamer builds for one read (runner_client.go:266-273):
exactly the bytes read, with the end-of-stream flag. -/
def frameOf (r : ReadResult) : DataFrame :=
  ⟨r.data, readIsEOF r⟩

/-- Max buffer size for gRPC data messages (runner_client.go:36-39). -/
def MaxDataChunk : Nat := 10 * 1024

/-- Embedding of the loop of `sendToRunner` (runner_client.go:251-287) as a
function of the sequence of body-read outcomes and the sequence of `Send`
outcomes (`none` = success, consumed in lockstep; an exhausted outcome list
means every further `Send` succeeds).  The result is the list of data frames
handed to `Send`, in order: after each read the frame is sent; a send error
(`io.EOF` or any other) ends the loop after that frame, as does an
end-of-stream read. -/
def sendToRunner : List ReadResult → List (Option GoErr) → List DataFrame
  | [], _ => []
  | r :: rs, sends =>
    let frame := frameOf r
    match sends.head? with
    | some (some _) => [frame]
    | _ => if readIsEOF r then [frame] else frame :: sendToRunner rs sends.tail

/-- Elements of a list up to and including the first one satisfying `p`. -/
def takeThrough (p : α → Bool) : List α → List α
  | [] => []
  | x :: xs => if p x then [x] else x :: takeThrough p xs

/-- Canonical reader for a body of known content, with `bytes.Reader`
semantics (the standard Go behavior for an in-memory body): each read fills
the chunk-sized buffer as far as the remaining content allows with a nil
error, and once the content is exhausted a read returns `(0, io.EOF)`.
Defined with a fuel argument; `canonReads` supplies enough fuel. -/
def canonReadsF (c : Nat) : Nat → List Nat → List ReadResult
  | 0, _ => []
  | _ + 1, [] => [⟨[], some GoErr.ioEOF⟩]
  | fuel + 1, x :: xs => ⟨(x :: xs).take c, none⟩ :: canonReadsF c fuel ((x :: xs).drop c)

/-- Read sequence of the canonical reader over body `L` with chunk size `c`. -/
def canonReads (c : Nat) (L : List Nat) : List ReadResult :=
  canonReadsF c (L.length + 1) L

/-- A body of `n` arbitrary bytes. -/
def canonBody (n : Nat) : List Nat :=
  List.replicate n 0

/-- Shape of a data frame: payload length and end-of-stream flag. -/
def frameShape (f : DataFrame) : Nat × Bool :=
  (f.data.length, f.eof)

/-- Frame shapes the streamer emits for a body of `n` bytes read through the
canonical reader with chunk size `MaxDataChunk`, all sends succeeding. -/
def streamShapes (n : Nat) : List (Nat × Bool) :=
  (sendToRunner (canonReads MaxDataChunk (canonBody n)) []).map frameShape

/-- HTTP header key/value pair carried by a Result Start message. -/
structure HttpHeader where
  key : String
  value : String
deriving DecidableEq, Repr

/-- A message received from the runner in `receiveFromRunner`.  A data frame
additionally carries the behavior of the response sink for the write it would
trigger: `writeN` is the byte count the sink's `Write` would report consumed,
`writeErr` the (opaque) error it would return. -/
inductive RecvMsg where
  | resultStartHttp (statusCode : Int) (headers : List HttpHeader)
  | resultStartOther
  | data (bytes : List Nat) (eof : Bool) (writeN : Nat) (writeErr : Option Unit)
  | finished (fin : CallFinished)
  | unknown
deriving DecidableEq, Repr

/-- One outcome of `Recv` in the receiver loops: a message, or a non-nil
receive error. -/
inductive RecvEvent where
  | msg (m : RecvMsg)
  | err (e : GoErr)
deriving DecidableEq, Repr

/-- Observable side effects of one receiver run: sink writes performed (bytes
supplied, bytes consumed, write error), status-code-setter (`WriteHeader`)
invocations, header-setter invocations, `tryQueueError` posts attempted on the
terminal-signal channel (in order; the capacity-one channel retains the
first), and `recordFinishStats` effects. -/
structure RecvRun where
  writes : List (List Nat × Nat × Option Unit)
  statusSets : List Int
  headerSets : List (String × String)
  posts : List GoErr
  stats : List StatsOut
deriving DecidableEq, Repr

/-- The run with no effects. -/
def RecvRun.empty : RecvRun := ⟨[], [], [], [], []⟩

/-- Concatenation of two effect runs. -/
def RecvRun.append (a b : RecvRun) : RecvRun :=
  ⟨a.writes ++ b.writes, a.statusSets ++ b.statusSets, a.headerSets ++ b.headerSets,
   a.posts ++ b.posts, a.stats ++ b.stats⟩

/-- Effects `a` performed before the rest of a main-loop run. -/
def prependRun (a : RecvRun) (x : RecvRun × Option (List RecvEvent)) :
    RecvRun × Option (List RecvEvent) :=
  (a.append x.1, x.2)

/-- Embedding of the `DataLoop` of `receiveFromRunner`
(runner_client.go:382-467), parameterized by the partial-write latch
`isPartialWrite` and driven by the receive-event trace.  A Result Start with
HTTP metadata sets each header and, when the status code is positive, invokes
the status-code setter.  A data frame is written to the sink unless the latch
is set; a write that consumes fewer bytes than supplied sets the latch and
posts the write's error, or `io.ErrShortWrite` when the write error is nil.  A
`Finished` message records stats, posts the parsed error on failure, and
breaks to the draining pass.  Unknown messages are ignored; a receive error is
posted and ends the run.  Returns the accumulated effects and, when the loop
ended via `Finished`, the events left for the draining pass (`none` when a
receive error ended the run or the trace was exhausted with the loop still
blocked in `Recv`). -/
def recvMain (isPartialWrite : Bool) : List RecvEvent → RecvRun × Option (List RecvEvent)
  | [] => (RecvRun.empty, none)
  | RecvEvent.err e :: _ =>
    ({ RecvRun.empty with posts := [e] }, none)
  | RecvEvent.msg m :: rest =>
    match m with
    | RecvMsg.resultStartHttp code headers =>
      prependRun
        { RecvRun.empty with
          headerSets := headers.map fun h => (h.key, h.value)
          statusSets := if 0 < code then [code] else [] }
        (recvMain isPartialWrite rest)
    | RecvMsg.resultStartOther => recvMain isPartialWrite rest
    | RecvMsg.data bytes _ writeN writeErr =>
      if isPartialWrite then recvMain isPartialWrite rest
      else
        prependRun
          { RecvRun.empty with
            writes := [(bytes, writeN, writeErr)]
            posts :=
              if writeN != bytes.length then
                [if writeErr.isSome then GoErr.sinkWriteErr else GoErr.ioShortWrite]
              else [] }
          (recvMain (isPartialWrite || (writeN != bytes.length)) rest)
    | RecvMsg.finished fin =>
      ({ RecvRun.empty with
         stats := [recordFinishStats fin]
         posts := if fin.success then [] else (parseError fin).toList }, some rest)
    | RecvMsg.unknown => recvMain isPartialWrite rest

/-- Embedding of the EOF-draining loop of `receiveFromRunner`
(runner_client.go:470-487): break silently on `io.EOF`; post and break on any
other receive error; any message is ignored but triggers a best-effort post of
the missing-EOF protocol error. -/
def recvDrain : List RecvEvent → RecvRun
  | [] => RecvRun.empty
  | RecvEvent.err e :: _ =>
    if e = GoErr.ioEOF then RecvRun.empty else { RecvRun.empty with posts := [e] }
  | RecvEvent.msg _ :: rest =>
    RecvRun.append { RecvRun.empty with posts := [GoErr.pureRunnerNoEOF] } (recvDrain rest)

/-- Embedding of `receiveFromRunner` (runner_client.go:369-487) as a function
of the receive-event trace: the main loop starting with the latch clear,
followed, when the main loop ended via `Finished`, by the draining pass. -/
def receiveFromRunner (events : List RecvEvent) : RecvRun :=
  match recvMain false events with
  | (run, none) => run
  | (run, some rest) => run.append (recvDrain rest)

/-- Short-write-type errors: the two error values the data branch can post
when a sink write comes up short. -/
def isShortPost : GoErr → Bool
  | GoErr.ioShortWrite => true
  | GoErr.sinkWriteErr => true
  | _ => false

/-- A write record whose consumed count falls short of the supplied bytes. -/
def writeShort (w : List Nat × Nat × Option Unit) : Bool :=
  w.2.1 != w.1.length

/-- Event carrying a Result Start message with a positive HTTP status code. -/
def isPosStart : RecvEvent → Bool
  | RecvEvent.msg (RecvMsg.resultStartHttp code _) => decide (0 < code)
  | _ => false

/-- C1 (counterexample): the claim says that when the session guard refuses a
new session `TryExec` returns `committed=true` with `ErrorRunnerClosed`; on an
environment whose guard refuses, the code in fact returns `committed=false`
(runner_client.go:169-172), so the claimed pair `(true, ErrorRunnerClosed)` is
not returned. -/
theorem tryExec_guard_refusal_counterexample :
    ¬((TryExec ⟨false, none, none, none, RaceOutcome.recvDone none⟩).committed = true ∧
      (TryExec ⟨false, none, none, none, RaceOutcome.recvDone none⟩).err =
        some GoErr.runnerClosed) := by
  decide

/-- C1 (amended): for every call on a connection whose session guard refuses a
new session, `TryExec` returns immediately with `committed=false` and
`ErrorRunnerClosed`, before anything is marshalled or sent. -/
theorem tryExec_guard_refusal_returns_uncommitted (env : ExecEnv)
    (h : env.guardAccepts = false) :
    TryExec env = ⟨false, some GoErr.runnerClosed, false, false⟩ := by
  simp [TryExec, h]

/-- C1 (witness): a concrete environment whose guard refuses. -/
theorem tryExec_guard_refusal_returns_uncommitted_witness :
    TryExec ⟨false, some (GoErr.other "m"), none, none, RaceOutcome.recvDone none⟩ =
      ⟨false, some GoErr.runnerClosed, false, false⟩ :=
  tryExec_guard_refusal_returns_uncommitted
    ⟨false, some (GoErr.other "m"), none, none, RaceOutcome.recvDone none⟩ rfl

/-- C2: for every value `v` produced on the terminal-signal channel after the
placement message was sent, `TryExec` returns
`(false, ErrCallTimeoutServerBusy)` when `v` classifies as busy and `(true, v)`
otherwise; in particular a nil value yields `(true, nil)`. -/
theorem tryExec_recv_terminal_value :
    (∀ v : Option GoErr,
      TryExec ⟨true, none, none, none, RaceOutcome.recvDone v⟩ =
        if isTooBusy v then ⟨false, some errCallTimeoutServerBusy, true, true⟩
        else ⟨true, v, true, true⟩) ∧
    TryExec ⟨true, none, none, none, RaceOutcome.recvDone none⟩ =
      ⟨true, none, true, true⟩ := by
  constructor
  · intro v
    simp only [TryExec]
    split <;> simp_all
  · rfl

/-- C3: for every error `e` returned by sending the placement request,
`TryExec` returns `committed=false` if and only if the transport status code
of `e` is "unavailable" (14); in every case the error itself is returned. -/
theorem tryExec_send_failure_classification (e : GoErr) (race : RaceOutcome) :
    ((TryExec ⟨true, none, none, some e, race⟩).committed = false ↔
      grpcCodeOf e = codeUnavailable) ∧
    (TryExec ⟨true, none, none, some e, race⟩).err = some e ∧
    (TryExec ⟨true, none, none, some e, race⟩).placementSendAttempted = true := by
  refine ⟨?_, rfl, rfl⟩
  simp only [TryExec]
  by_cases h : grpcCodeOf e = codeUnavailable <;> simp [h]

/-- C7: the error classifier `isTooBusy` returns true if and only if the
input's resolved code equals the reserved server-busy code 503 — resolved
first as a structured application error and otherwise as a transport status
code — and it returns false for nil. -/
theorem isTooBusy_iff_busy_code :
    (∀ err : Option GoErr,
      isTooBusy err = true ↔
        (getAPIErrorCode err = 503 ∨ ∃ e, err = some e ∧ grpcCodeOf e = 503)) ∧
    isTooBusy none = false := by
  refine ⟨?_, rfl⟩
  intro err
  match err with
  | none => simp [isTooBusy, getAPIErrorCode, errCallTimeoutServerBusy]
  | some e =>
    simp only [isTooBusy, getAPIErrorCode, errCallTimeoutServerBusy]
    by_cases h : getAPIErrorCode (some e) = 503
    · simp_all [getAPIErrorCode]
    · by_cases h2 : grpcCodeOf e = 503 <;> simp_all [getAPIErrorCode]

/-- C9: when a `Finished` message carries zero scheduler and execution
durations, latency is derived from the wall-clock timestamps exactly when all
three parse to a non-zero time and are monotonically non-decreasing, in which
case scheduler = started − created and execution = completed − started are
recorded and the execution duration is added to the accumulator; otherwise
nothing is recorded. -/
theorem recordFinishStats_timestamp_fallback (m : CallFinished)
    (h1 : m.schedulerDuration = 0) (h2 : m.executionDuration = 0) :
    recordFinishStats m =
      if ¬translateDate m.createdAt = 0 ∧ ¬translateDate m.startedAt = 0 ∧
          ¬translateDate m.completedAt = 0 ∧
          ¬translateDate m.startedAt < translateDate m.createdAt ∧
          ¬translateDate m.completedAt < translateDate m.startedAt then
        ⟨some (translateDate m.startedAt - translateDate m.createdAt),
         some (translateDate m.completedAt - translateDate m.startedAt),
         some (translateDate m.completedAt - translateDate m.startedAt)⟩
      else ⟨none, none, none⟩ := by
  simp only [recordFinishStats, h1, h2]
  simp

/-- C9 (witness): a finished message with zero durations and valid timestamps
1 ≤ 2 ≤ 4 records scheduler 1 and execution 2, and accumulates 2. -/
theorem recordFinishStats_timestamp_fallback_witness :
    recordFinishStats ⟨true, 0, "", false, 0, 0, some 1, some 2, some 4⟩ =
      ⟨some 1, some 2, some 2⟩ :=
  (recordFinishStats_timestamp_fallback
    ⟨true, 0, "", false, 0, 0, some 1, some 2, some 4⟩ rfl rfl).trans (by decide)

/-- C10: a `Finished` message with a non-zero scheduler duration and a zero
execution duration takes the direct path: only the scheduler latency is
recorded, nothing is added to the accumulator, and the timestamp fallback is
never attempted (the result is independent of the timestamps). -/
theorem recordFinishStats_direct_sched_only (m : CallFinished)
    (h1 : m.schedulerDuration ≠ 0) (h2 : m.executionDuration = 0) :
    recordFinishStats m = ⟨some m.schedulerDuration, none, none⟩ := by
  simp [recordFinishStats, h1, h2]

/-- C10 (witness): scheduler duration 5, execution duration 0, with valid
timestamps present that the fallback would have accepted. -/
theorem recordFinishStats_direct_sched_only_witness :
    recordFinishStats ⟨true, 0, "", false, 5, 0, some 1, some 2, some 4⟩ =
      ⟨some 5, none, none⟩ :=
  recordFinishStats_direct_sched_only
    ⟨true, 0, "", false, 5, 0, some 1, some 2, some 4⟩ (by decide) rfl

theorem sendToRunner_all_ok (rs : List ReadResult) :
    sendToRunner rs [] = (takeThrough readIsEOF rs).map frameOf := by
  induction rs with
  | nil => rfl
  | cons r rs ih =>
    by_cases h : readIsEOF r
    · simp [sendToRunner, takeThrough, h]
    · simp [sendToRunner, takeThrough, h, ih]

theorem sendToRunner_err_still_sends (pre rest : List ReadResult) (r : ReadResult)
    (hpre : pre.all (fun p => !readIsEOF p) = true) (herr : r.err.isSome = true) :
    sendToRunner (pre ++ r :: rest) [] = pre.map frameOf ++ [⟨r.data, true⟩] := by
  induction pre with
  | nil =>
    have h : readIsEOF r = true := by simp [readIsEOF, herr]
    simp [sendToRunner, h, frameOf]
  | cons p pre ih =>
    simp only [List.all_cons, Bool.and_eq_true, Bool.not_eq_true'] at hpre
    simp [sendToRunner, hpre.1, ih hpre.2]

/-- C8: for every read performed by the streamer (with every send succeeding),
the data frame sent carries exactly the bytes read and an end-of-stream flag
that is true iff the read returned zero bytes or any error — the loop runs
through the reads up to and including the first end-of-stream one — and a read
that returns an error after a run of non-terminal reads does not abort the
loop early: its frame, with end-of-stream true, is still sent. -/
theorem streamer_frames_match_reads (rs pre rest : List ReadResult) (r : ReadResult)
    (hpre : pre.all (fun p => !readIsEOF p) = true) (herr : r.err.isSome = true) :
    sendToRunner rs [] =
      (takeThrough readIsEOF rs).map (fun q => ⟨q.data, q.err.isSome || q.data.isEmpty⟩) ∧
    sendToRunner (pre ++ r :: rest) [] = pre.map frameOf ++ [⟨r.data, true⟩] := by
  constructor
  · have h := sendToRunner_all_ok rs
    simpa [frameOf, readIsEOF] using h
  · exact sendToRunner_err_still_sends pre rest r hpre herr

/-- C8 (witness): one full read followed by an erroring read; the erroring
read's frame is still sent with end-of-stream true. -/
theorem streamer_frames_match_reads_witness :
    sendToRunner [⟨[7], none⟩, ⟨[], some GoErr.ioEOF⟩] [] =
      (takeThrough readIsEOF [⟨[7], none⟩, ⟨[], some GoErr.ioEOF⟩]).map
        (fun q => ⟨q.data, q.err.isSome || q.data.isEmpty⟩) ∧
    sendToRunner ([⟨[1, 2], none⟩] ++ ⟨[3], some (GoErr.other "boom")⟩ :: []) [] =
      [⟨[1, 2], none⟩].map frameOf ++ [⟨[3], true⟩] :=
  streamer_frames_match_reads [⟨[7], none⟩, ⟨[], some GoErr.ioEOF⟩]
    [⟨[1, 2], none⟩] [] ⟨[3], some (GoErr.other "boom")⟩ (by decide) rfl

theorem streamShapes_general (c : Nat) (hc : 0 < c) :
    ∀ (fuel : Nat) (L : List Nat), L.length < fuel →
    (sendToRunner (canonReadsF c fuel L) []).map frameShape =
      List.replicate (L.length / c) (c, false) ++
      (if L.length % c = 0 then [] else [(L.length % c, false)]) ++ [(0, true)] := by
  intro fuel
  induction fuel with
  | zero => intro L hL; omega
  | succ fuel ih =>
    intro L hL
    match L with
    | [] =>
      simp [canonReadsF, sendToRunner, frameOf, readIsEOF, frameShape]
    | x :: xs =>
      obtain ⟨c', rfl⟩ : ∃ c', c = c' + 1 := ⟨c - 1, by omega⟩
      have hne : readIsEOF ⟨(x :: xs).take (c' + 1), none⟩ = false := by
        simp [readIsEOF, List.take_succ_cons]
      have hlen : ((x :: xs).drop (c' + 1)).length = (x :: xs).length - (c' + 1) := by
        simp
      have hrec := ih ((x :: xs).drop (c' + 1)) (by simp at hL ⊢; omega)
      simp only [canonReadsF, sendToRunner, hne, List.head?_nil, List.tail_nil,
        Bool.false_eq_true, if_false]
      rw [List.map_cons, hrec]
      have hshape : frameShape (frameOf ⟨(x :: xs).take (c' + 1), none⟩) =
          (min (c' + 1) (x :: xs).length, false) := by
        simp [frameShape, frameOf, readIsEOF, List.take_succ_cons]
        omega
      rw [hshape, hlen]
      by_cases hcle : c' + 1 ≤ (x :: xs).length
      · have hmin : min (c' + 1) (x :: xs).length = c' + 1 := by omega
        have hsub : (x :: xs).length - (c' + 1) + (c' + 1) = (x :: xs).length := by omega
        have hdiv : (x :: xs).length / (c' + 1) =
            ((x :: xs).length - (c' + 1)) / (c' + 1) + 1 := by
          conv_lhs => rw [← hsub]
          rw [Nat.add_div_right _ (by omega)]
        have hmod : (x :: xs).length % (c' + 1) =
            ((x :: xs).length - (c' + 1)) % (c' + 1) := by
          conv_lhs => rw [← hsub]
          rw [Nat.add_mod_right]
        rw [hmin, hdiv, hmod, List.replicate_succ]
        simp
      · have hlt : (x :: xs).length < c' + 1 := by omega
        have hmin : min (c' + 1) (x :: xs).length = (x :: xs).length := by omega
        have hz : (x :: xs).length - (c' + 1) = 0 := by omega
        have hdiv : (x :: xs).length / (c' + 1) = 0 := Nat.div_eq_of_lt hlt
        have hmod : (x :: xs).length % (c' + 1) = (x :: xs).length :=
          Nat.mod_eq_of_lt hlt
        have hpos : (x :: xs).length ≠ 0 := by simp
        rw [hmin, hz, hdiv, hmod]
        simp [hpos]

/-- C5 (counterexample): for a body of 1 byte the claim predicts
ceil(1/C) = 1 non-final frame of exactly C = 10240 bytes followed by a final
frame of the 1-byte remainder with end-of-stream true; the streamer actually
emits a 1-byte non-final frame followed by a zero-length end-of-stream
frame. -/
theorem streamer_frames_claim_counterexample :
    ¬(streamShapes 1 =
        List.replicate ((1 + MaxDataChunk - 1) / MaxDataChunk) ((MaxDataChunk : Nat), false) ++
        [((1 : Nat) % MaxDataChunk, true)]) := by
  decide

/-- C5 (amended): fed a body of `n` bytes through the canonical reader with
chunk size C = `MaxDataChunk`, the streamer emits floor(n/C) non-final frames
of exactly C bytes, then — when n is not a multiple of C — one non-final frame
carrying the n mod C remaining bytes, and finally one zero-length
end-of-stream frame. -/
theorem streamer_frames_shape (n : Nat) :
    streamShapes n =
      List.replicate (n / MaxDataChunk) ((MaxDataChunk : Nat), false) ++
      (if n % MaxDataChunk = 0 then [] else [(n % MaxDataChunk, false)]) ++
      [(0, true)] := by
  have hlen : (canonBody n).length = n := by simp [canonBody]
  have h := streamShapes_general MaxDataChunk (by decide)
    ((canonBody n).length + 1) (canonBody n) (by omega)
  rw [streamShapes, canonReads, h, hlen]

theorem recvMain_data_clear (bytes : List Nat) (eo : Bool) (writeN : Nat)
    (writeErr : Option Unit) (rest : List RecvEvent) :
    recvMain false (RecvEvent.msg (RecvMsg.data bytes eo writeN writeErr) :: rest) =
      prependRun
        { RecvRun.empty with
          writes := [(bytes, writeN, writeErr)]
          posts :=
            if writeN != bytes.length then
              [if writeErr.isSome then GoErr.sinkWriteErr else GoErr.ioShortWrite]
            else [] }
        (recvMain (writeN != bytes.length) rest) := by
  simp [recvMain]

theorem recvMain_statusSets_le (evs : List RecvEvent) :
    ∀ latch, (recvMain latch evs).1.statusSets.length ≤ evs.countP isPosStart := by
  induction evs with
  | nil => intro latch; simp [recvMain, RecvRun.empty]
  | cons e rest ih =>
    intro latch
    match e with
    | RecvEvent.err e' =>
      simp [recvMain, RecvRun.empty, List.countP_cons]
    | RecvEvent.msg (RecvMsg.resultStartHttp code headers) =>
      by_cases h : (0 : Int) < code <;>
        simp [recvMain, prependRun, RecvRun.append, RecvRun.empty, List.countP_cons,
          isPosStart, h] <;>
        have := ih latch <;> omega
    | RecvEvent.msg RecvMsg.resultStartOther =>
      simp only [recvMain, List.countP_cons, isPosStart]
      have := ih latch
      simp
      omega
    | RecvEvent.msg (RecvMsg.data bytes eo writeN writeErr) =>
      by_cases h : latch = true
      · subst h
        simp only [recvMain, if_pos rfl, List.countP_cons, isPosStart]
        have := ih true
        simp
        omega
      · have hl : latch = false := by simpa using h
        subst hl
        rw [recvMain_data_clear]
        simp only [prependRun, RecvRun.append, RecvRun.empty, List.countP_cons, isPosStart]
        have := ih (writeN != bytes.length)
        simp
        omega
    | RecvEvent.msg (RecvMsg.finished fin) =>
      simp [recvMain, RecvRun.empty, List.countP_cons]
    | RecvEvent.msg RecvMsg.unknown =>
      simp only [recvMain, List.countP_cons, isPosStart]
      have := ih latch
      simp
      omega

theorem recvDrain_no_statusSets (evs : List RecvEvent) :
    (recvDrain evs).statusSets = [] := by
  induction evs with
  | nil => rfl
  | cons e rest ih =>
    match e with
    | RecvEvent.err e' =>
      by_cases h : e' = GoErr.ioEOF <;> simp [recvDrain, RecvRun.empty, h]
    | RecvEvent.msg m =>
      simp [recvDrain, RecvRun.append, RecvRun.empty, ih]

/-- C4 (amended): the receiver invokes the response sink's status-code setter
exactly once per Result Start message carrying a positive HTTP status code
that it processes; hence the number of invocations in one exchange never
exceeds the number of such messages in the receive trace (so it is at most
once only when at most one such message arrives — a second such message
triggers a second invocation). -/
theorem receiver_status_sets_bounded (evs : List RecvEvent) :
    (receiveFromRunner evs).statusSets.length ≤ evs.countP isPosStart := by
  unfold receiveFromRunner
  have hmain := recvMain_statusSets_le evs false
  match hrec : recvMain false evs with
  | (run, none) => rw [hrec] at hmain; exact hmain
  | (run, some rest) =>
    rw [hrec] at hmain
    simp [RecvRun.append, recvDrain_no_statusSets]
    exact hmain

/-- C4 (counterexample): on a trace holding two Result Start messages that
each carry a positive HTTP status code, the receiver invokes the status-code
setter twice, refuting "at most once regardless of how many Result Start
messages carrying a positive HTTP status code arrive". -/
theorem receiver_status_set_twice_counterexample :
    ¬((receiveFromRunner [RecvEvent.msg (RecvMsg.resultStartHttp 200 []),
        RecvEvent.msg (RecvMsg.resultStartHttp 201 [])]).statusSets.length ≤ 1) := by
  decide

theorem parseError_not_short (fin : CallFinished) :
    (if fin.success then [] else (parseError fin).toList).countP isShortPost = 0 := by
  by_cases h : fin.success
  · simp [h]
  · simp only [h, if_false, parseError]
    by_cases hu : fin.errorUser <;> simp [h, hu, isShortPost]

theorem recvMain_data_short (bytes : List Nat) (eo : Bool) (writeN : Nat)
    (writeErr : Option Unit) (rest : List RecvEvent)
    (hshort : (writeN != bytes.length) = true) :
    recvMain false (RecvEvent.msg (RecvMsg.data bytes eo writeN writeErr) :: rest) =
      prependRun
        { RecvRun.empty with
          writes := [(bytes, writeN, writeErr)]
          posts := [if writeErr.isSome then GoErr.sinkWriteErr else GoErr.ioShortWrite] }
        (recvMain true rest) := by
  simp [recvMain, hshort]

theorem recvMain_data_full (bytes : List Nat) (eo : Bool) (writeN : Nat)
    (writeErr : Option Unit) (rest : List RecvEvent)
    (hfull : (writeN != bytes.length) = false) :
    recvMain false (RecvEvent.msg (RecvMsg.data bytes eo writeN writeErr) :: rest) =
      prependRun { RecvRun.empty with writes := [(bytes, writeN, writeErr)] }
        (recvMain false rest) := by
  simp [recvMain, hfull, RecvRun.empty]

theorem recvMain_short_inv (evs : List RecvEvent) :
    ∀ latch, (∀ e, RecvEvent.err e ∈ evs → isShortPost e = false) →
    ((latch = true → (recvMain latch evs).1.writes = []) ∧
     ((recvMain latch evs).1.writes.dropLast.all (fun w => !writeShort w) = true) ∧
     ((recvMain latch evs).1.posts.countP isShortPost =
       if (recvMain latch evs).1.writes.any writeShort then 1 else 0) ∧
     (∀ rest, (recvMain latch evs).2 = some rest →
       ∀ e, RecvEvent.err e ∈ rest → isShortPost e = false)) := by
  induction evs with
  | nil =>
    intro latch _
    refine ⟨fun _ => rfl, rfl, rfl, ?_⟩
    intro rest hrest
    simp [recvMain] at hrest
  | cons e rest ih =>
    intro latch h
    have hrest : ∀ e', RecvEvent.err e' ∈ rest → isShortPost e' = false :=
      fun e' he' => h e' (List.mem_cons_of_mem _ he')
    match e with
    | RecvEvent.err e' =>
      have he' : isShortPost e' = false := h e' (List.mem_cons_self _ _)
      refine ⟨fun _ => rfl, rfl, ?_, ?_⟩
      · simp [recvMain, RecvRun.empty, he']
      · intro r hr
        simp [recvMain] at hr
    | RecvEvent.msg (RecvMsg.resultStartHttp code headers) =>
      obtain ⟨ih1, ih2, ih3, ih4⟩ := ih latch hrest
      refine ⟨?_, ?_, ?_, ?_⟩
      · intro hl
        simp only [recvMain, prependRun, RecvRun.append, RecvRun.empty, List.nil_append]
        exact ih1 hl
      · simp only [recvMain, prependRun, RecvRun.append, RecvRun.empty, List.nil_append]
        exact ih2
      · simp only [recvMain, prependRun, RecvRun.append, RecvRun.empty, List.nil_append]
        exact ih3
      · intro r hr
        apply ih4
        simpa [recvMain, prependRun] using hr
    | RecvEvent.msg RecvMsg.resultStartOther =>
      exact ih latch hrest
    | RecvEvent.msg RecvMsg.unknown =>
      exact ih latch hrest
    | RecvEvent.msg (RecvMsg.data bytes eo writeN writeErr) =>
      by_cases hl : latch = true
      · subst hl
        obtain ⟨ih1, ih2, ih3, ih4⟩ := ih true hrest
        refine ⟨?_, ?_, ?_, ?_⟩
        · intro _
          simp only [recvMain, if_pos rfl]
          exact ih1 rfl
        · simp only [recvMain, if_pos rfl]
          exact ih2
        · simp only [recvMain, if_pos rfl]
          exact ih3
        · intro r hr
          apply ih4
          simpa [recvMain] using hr
      · have hl' : latch = false := by simpa using hl
        subst hl'
        cases hs : (writeN != bytes.length) with
        | true =>
          obtain ⟨ih1, ih2, ih3, ih4⟩ := ih true hrest
          have hw : (recvMain true rest).1.writes = [] := ih1 rfl
          have hp : (recvMain true rest).1.posts.countP isShortPost = 0 := by
            rw [hw] at ih3
            simpa using ih3
          rw [recvMain_data_short _ _ _ _ _ hs]
          refine ⟨?_, ?_, ?_, ?_⟩
          · intro hfalse
            exact absurd hfalse (by simp)
          · simp [prependRun, RecvRun.append, RecvRun.empty, hw]
          · simp only [prependRun, RecvRun.append, RecvRun.empty, List.nil_append,
              List.singleton_append, hw]
            have hws : writeShort (bytes, writeN, writeErr) = true := by
              simp [writeShort, hs]
            simp only [List.countP_cons, List.any_cons, List.any_nil, hws, hp]
            by_cases hwe : writeErr.isSome <;> simp [hwe, isShortPost]
          · intro r hr
            apply ih4
            simpa [prependRun] using hr
        | false =>
          obtain ⟨ih1, ih2, ih3, ih4⟩ := ih false hrest
          have hws : writeShort (bytes, writeN, writeErr) = false := by
            simp [writeShort, hs]
          rw [recvMain_data_full _ _ _ _ _ hs]
          refine ⟨?_, ?_, ?_, ?_⟩
          · intro hfalse
            exact absurd hfalse (by simp)
          · simp only [prependRun, RecvRun.append, RecvRun.empty, List.nil_append,
              List.singleton_append]
            cases hrw : (recvMain false rest).1.writes with
            | nil => rfl
            | cons w ws =>
              rw [List.dropLast_cons₂, List.all_cons, hws]
              rw [hrw] at ih2
              simpa using ih2
          · simp only [prependRun, RecvRun.append, RecvRun.empty, List.nil_append,
              List.singleton_append, List.any_cons, hws, Bool.false_or]
            exact ih3
          · intro r hr
            apply ih4
            simpa [prependRun] using hr
    | RecvEvent.msg (RecvMsg.finished fin) =>
      refine ⟨fun _ => rfl, rfl, ?_, ?_⟩
      · simpa [recvMain, RecvRun.empty] using parseError_not_short fin
      · intro r hr
        simp only [recvMain] at hr
        intro e' he'
        apply hrest
        rw [Option.some_inj.mp hr]
        exact he'

theorem recvDrain_short_inv (evs : List RecvEvent)
    (h : ∀ e, RecvEvent.err e ∈ evs → isShortPost e = false) :
    (recvDrain evs).writes = [] ∧ (recvDrain evs).posts.countP isShortPost = 0 := by
  induction evs with
  | nil => exact ⟨rfl, rfl⟩
  | cons e rest ih =>
    have hrest : ∀ e', RecvEvent.err e' ∈ rest → isShortPost e' = false :=
      fun e' he' => h e' (List.mem_cons_of_mem _ he')
    match e with
    | RecvEvent.err e' =>
      have he' : isShortPost e' = false := h e' (List.mem_cons_self _ _)
      by_cases heof : e' = GoErr.ioEOF <;>
        simp [recvDrain, RecvRun.empty, heof, he']
    | RecvEvent.msg m =>
      obtain ⟨ihw, ihp⟩ := ih hrest
      constructor
      · simp [recvDrain, RecvRun.append, RecvRun.empty, ihw]
      · simp [recvDrain, RecvRun.append, RecvRun.empty, List.countP_cons, ihp, isShortPost]

theorem RecvRun.append_empty (a : RecvRun) : a.append RecvRun.empty = a := by
  simp [RecvRun.append, RecvRun.empty]

theorem receiveFromRunner_parts (evs : List RecvEvent) :
    receiveFromRunner evs = ((recvMain false evs).1).append
      (match (recvMain false evs).2 with
       | none => RecvRun.empty
       | some r => recvDrain r) := by
  unfold receiveFromRunner
  rcases hrec : recvMain false evs with ⟨run, rst⟩
  cases rst
  · exact (RecvRun.append_empty run).symm
  · rfl

theorem recvMain_latched_no_writes (evs : List RecvEvent) :
    (recvMain true evs).1.writes = [] := by
  induction evs with
  | nil => rfl
  | cons e rest ih =>
    match e with
    | RecvEvent.err e' => rfl
    | RecvEvent.msg (RecvMsg.resultStartHttp code headers) =>
      simp only [recvMain, prependRun, RecvRun.append, RecvRun.empty, List.nil_append]
      exact ih
    | RecvEvent.msg RecvMsg.resultStartOther => exact ih
    | RecvEvent.msg RecvMsg.unknown => exact ih
    | RecvEvent.msg (RecvMsg.data b eo wN wE) =>
      simp only [recvMain, if_pos rfl]
      exact ih
    | RecvEvent.msg (RecvMsg.finished fin) => rfl

/-- C6: in the receiver, (i) every sink write other than possibly the last one
in an exchange consumes the full buffer supplied — so after a short write no
further sink writes occur; (ii) the short-write-type errors posted to the
terminal-signal channel number exactly one when a short write occurred and
zero otherwise (for traces whose transport receive errors are not themselves
short-write errors); (iii) a data frame whose write comes up short does not
end the run: the receiver posts the single short-write error, latches, and
keeps processing the remaining events; (iv) with the latch set, no event ever
triggers a sink write. -/
theorem receiver_partial_write_latch (evs : List RecvEvent)
    (h : ∀ e, RecvEvent.err e ∈ evs → isShortPost e = false)
    (bytes : List Nat) (eo : Bool) (writeN : Nat) (writeErr : Option Unit)
    (hshort : writeN ≠ bytes.length) (rest evs2 : List RecvEvent) :
    ((receiveFromRunner evs).writes.dropLast.all (fun w => !writeShort w) = true) ∧
    ((receiveFromRunner evs).posts.countP isShortPost =
      if (receiveFromRunner evs).writes.any writeShort then 1 else 0) ∧
    (recvMain false (RecvEvent.msg (RecvMsg.data bytes eo writeN writeErr) :: rest) =
      prependRun
        { RecvRun.empty with
          writes := [(bytes, writeN, writeErr)]
          posts := [if writeErr.isSome then GoErr.sinkWriteErr else GoErr.ioShortWrite] }
        (recvMain true rest)) ∧
    ((recvMain true evs2).1.writes = []) := by
  obtain ⟨-, m2, m3, m4⟩ := recvMain_short_inv evs false h
  refine ⟨?_, ?_, ?_, recvMain_latched_no_writes evs2⟩
  · rw [receiveFromRunner_parts]
    cases hrst : (recvMain false evs).2 with
    | none =>
      rw [RecvRun.append_empty]
      exact m2
    | some r =>
      obtain ⟨dw, dp⟩ := recvDrain_short_inv r (m4 r hrst)
      simp only [RecvRun.append, dw, List.append_nil]
      exact m2
  · rw [receiveFromRunner_parts]
    cases hrst : (recvMain false evs).2 with
    | none =>
      rw [RecvRun.append_empty]
      exact m3
    | some r =>
      obtain ⟨dw, dp⟩ := recvDrain_short_inv r (m4 r hrst)
      simp only [RecvRun.append, dw, List.append_nil, List.countP_append, dp,
        Nat.add_zero]
      exact m3
  · exact recvMain_data_short bytes eo writeN writeErr rest (by simpa using hshort)

/-- C6 (witness): a trace where the first data frame's write is short (1 of 2
bytes), a further data frame follows, and the exchange finishes normally. -/
theorem receiver_partial_write_latch_witness :
    ((receiveFromRunner [RecvEvent.msg (RecvMsg.data [1, 2] false 1 none),
        RecvEvent.msg (RecvMsg.data [9] false 1 none),
        RecvEvent.msg (RecvMsg.finished ⟨true, 0, "", false, 0, 0, none, none, none⟩)]).writes.dropLast.all
      (fun w => !writeShort w) = true) ∧
    ((receiveFromRunner [RecvEvent.msg (RecvMsg.data [1, 2] false 1 none),
        RecvEvent.msg (RecvMsg.data [9] false 1 none),
        RecvEvent.msg (RecvMsg.finished ⟨true, 0, "", false, 0, 0, none, none, none⟩)]).posts.countP isShortPost =
      if (receiveFromRunner [RecvEvent.msg (RecvMsg.data [1, 2] false 1 none),
           RecvEvent.msg (RecvMsg.data [9] false 1 none),
           RecvEvent.msg (RecvMsg.finished ⟨true, 0, "", false, 0, 0, none, none, none⟩)]).writes.any writeShort
      then 1 else 0) ∧
    (recvMain false (RecvEvent.msg (RecvMsg.data [5, 6] false 0 none) :: []) =
      prependRun
        { RecvRun.empty with
          writes := [([5, 6], 0, none)]
          posts := [if (none : Option Unit).isSome then GoErr.sinkWriteErr
                    else GoErr.ioShortWrite] }
        (recvMain true [])) ∧
    ((recvMain true [RecvEvent.msg (RecvMsg.data [1, 2] false 1 none),
        RecvEvent.msg (RecvMsg.data [9] false 1 none),
        RecvEvent.msg (RecvMsg.finished ⟨true, 0, "", false, 0, 0, none, none, none⟩)]).1.writes = []) :=
  receiver_partial_write_latch
    [RecvEvent.msg (RecvMsg.data [1, 2] false 1 none),
      RecvEvent.msg (RecvMsg.data [9] false 1 none),
      RecvEvent.msg (RecvMsg.finished ⟨true, 0, "", false, 0, 0, none, none, none⟩)]
    (by intro e he; simp at he)
    [5, 6] false 0 none (by decide) []
    [RecvEvent.msg (RecvMsg.data [1, 2] false 1 none),
      RecvEvent.msg (RecvMsg.data [9] false 1 none),
      RecvEvent.msg (RecvMsg.finished ⟨true, 0, "", false, 0, 0, none, none, none⟩)]

end RunnerClient
